import Mathlib

/-!
Verification of the netrender farm-coordination utilities (netrender/utils.py):
discovery (`clientScan`), connection handshake (`clientConnection` /
`clientVerifyVersion`), the reporting sink (`reporting`), the backoff sleeper
(`BreakableIncrementedSleep`), URL templates, and the path remapper
(`prefixPath`).  Python exceptions are modelled with `Except`, the filesystem
with a predicate `String → Bool`, byte strings with `List Nat`, and Python
`int` with `Int`.
-/

/-- Model of the Python exceptions raised by this module. -/
inductive PyExc where
  | valueError : String → PyExc
  | ioError : String → PyExc
  | indexError : PyExc
  | fileNotFoundError : String → PyExc
deriving DecidableEq, Repr

/-- `str(exc)` for the exceptions we model (used by `print(err)` /
`report({'ERROR'}, str(err))` in `clientConnection`). -/
def PyExc.msg : PyExc → String
  | PyExc.valueError m => m
  | PyExc.ioError m => m
  | PyExc.indexError => "string index out of range"
  | PyExc.fileNotFoundError m => m

instance {e a : Type} [DecidableEq e] [DecidableEq a] : DecidableEq (Except e a) := fun x y =>
  match x, y with
  | Except.ok u, Except.ok v =>
    if h : u = v then isTrue (by rw [h]) else isFalse (fun c => h (Except.ok.inj c))
  | Except.error u, Except.error v =>
    if h : u = v then isTrue (by rw [h]) else isFalse (fun c => h (Except.error.inj c))
  | Except.ok _, Except.error _ => isFalse (fun c => Except.noConfusion c)
  | Except.error _, Except.ok _ => isFalse (fun c => Except.noConfusion c)

/-- The exception class passed as the `errorType` argument of `reporting`. -/
inductive ErrKind where
  | valueError
  | ioError
deriving DecidableEq, Repr

/-- Applying the exception class to a message: `errorType(message)`. -/
def ErrKind.toExc : ErrKind → String → PyExc
  | ErrKind.valueError, m => PyExc.valueError m
  | ErrKind.ioError, m => PyExc.ioError m

/-- `reporting(report, message, errorType)` from utils.py.  `report = true`
models a supplied reporting sink.  The result is the control-flow outcome
(`Except.error` = the Python `raise`) paired with the list of
(severity, message) pairs delivered to the sink. -/
def reporting (report : Bool) (message : String) (errorType : Option ErrKind) :
    Except PyExc Unit × List (String × String) :=
  let t := if errorType.isSome then "ERROR" else "INFO"
  if report then
    (Except.ok (), [(t, message)])
  else
    match errorType with
    | some k => (Except.error (k.toExc message), [])
    | none => (Except.ok (), [])

/-- Digits-only parser: `some n` iff the list is a non-empty list of ASCII
decimal digits. -/
def parseDigits (l : List Char) : Option Nat :=
  if l = [] then none
  else l.foldl (fun acc c =>
    match acc with
    | none => none
    | some n => if c.isDigit then some (n * 10 + (c.toNat - 48)) else none)
    (some 0)

/-- Model of Python `int(s)` for a decimal literal: optional surrounding
whitespace, optional sign, then decimal digits; `none` models the
`ValueError` that `int` raises otherwise. -/
def pyInt (s : String) : Option Int :=
  let l := ((s.data.dropWhile Char.isWhitespace).reverse.dropWhile
    Char.isWhitespace).reverse
  match l with
  | '-' :: ds => (parseDigits ds).map (fun n => -(n : Int))
  | '+' :: ds => (parseDigits ds).map (fun n => (n : Int))
  | ds => (parseDigits ds).map (fun n => (n : Int))

/-- Outcome of a `clientScan` call: the value returned (if any), the
exception propagated to the caller (if any), and the sink messages. -/
structure ScanOutcome where
  result : Option (String × Int)
  raised : Option PyExc
  sink : List (String × String)
deriving Repr

/-- `clientScan(report)` from utils.py.  The network environment is the
single datagram received within the 30-second window: `packet = some
(payload, senderAddress)`, or `none` for a `socket.timeout`.  On a packet the
payload is parsed with `int`; a parse failure models the uncaught
`ValueError`.  On timeout, `reporting(report, "No master server on network",
IOError)` either raises (no sink) or reports and the function returns the
defaults `("", 8000)`. -/
def clientScan (report : Bool) (packet : Option (String × String)) : ScanOutcome :=
  match packet with
  | some (payload, addr) =>
    match pyInt payload with
    | some port =>
      let r := reporting report "Master server found" none
      { result := some (addr, port), raised := none, sink := r.2 }
    | none =>
      { result := none, raised := some (PyExc.valueError payload), sink := [] }
  | none =>
    let r := reporting report "No master server on network" (some ErrKind.ioError)
    match r.1 with
    | Except.error e => { result := none, raised := some e, sink := r.2 }
    | Except.ok _ => { result := some ("", 8000), raised := none, sink := r.2 }

/-- State of a `BreakableIncrementedSleep` object (utils.py lines 125-145);
`break_fct` is supplied separately to `sleep`. -/
structure BreakableIncrementedSleep where
  increment : Int
  default : Int
  max : Int
  current : Int
deriving DecidableEq, Repr

namespace BreakableIncrementedSleep

/-- `__init__(increment, default_timeout, max_timeout, ...)`:
`current = default`. -/
def init (increment default_timeout max_timeout : Int) : BreakableIncrementedSleep :=
  { increment := increment, default := default_timeout, max := max_timeout,
    current := default_timeout }

/-- `reset()`: `current = default`. -/
def reset (s : BreakableIncrementedSleep) : BreakableIncrementedSleep :=
  { s with current := s.default }

/-- `increase()`: `current = min(current + increment, max)`. -/
def increase (s : BreakableIncrementedSleep) : BreakableIncrementedSleep :=
  { s with current := min (s.current + s.increment) s.max }

end BreakableIncrementedSleep

/-- The units actually slept by the loop `for i in range(n): time.sleep(1);
if break_fct(): break`, where `brk k` is the value of the k-th `break_fct()`
call of this `sleep` invocation. -/
def sleepUnits (brk : Nat → Bool) : Nat → Nat
  | 0 => 0
  | n + 1 => if brk 0 then 1 else 1 + sleepUnits (fun i => brk (i + 1)) n

/-- `sleep()` from utils.py: sleeps unit by unit, checking `break_fct()`
after each unit, then always calls `increase()`.  Returns the number of
one-unit sleeps performed and the state after the trailing `increase()`. -/
def BreakableIncrementedSleep.sleep (s : BreakableIncrementedSleep)
    (brk : Nat → Bool) : Nat × BreakableIncrementedSleep :=
  (sleepUnits brk s.current.toNat, s.increase)

/-- A call in a reset/increase call sequence. -/
inductive BisOp where
  | reset
  | increase
deriving DecidableEq, Repr

/-- Apply one call to the backoff state. -/
def applyOp (s : BreakableIncrementedSleep) : BisOp → BreakableIncrementedSleep
  | BisOp.reset => s.reset
  | BisOp.increase => s.increase

/-- Apply a finite sequence of reset/increase calls, left to right. -/
def applyOps (s : BreakableIncrementedSleep) : List BisOp → BreakableIncrementedSleep
  | [] => s
  | op :: rest => applyOps (applyOp s op) rest

/-- `http.client.OK`. -/
def httpOK : Nat := 200

/-- The status and body of the `GET /version` response, as delivered by the
master over the established transport connection. -/
structure VersionResponse where
  status : Nat
  body : List Nat
deriving DecidableEq, Repr

/-- Model of `str(bytes, encoding='utf8')` for the ASCII payloads this module
prints (each byte mapped to its codepoint). -/
def decodeBytes (bs : List Nat) : String := ⟨bs.map Char.ofNat⟩

/-- Result of `clientVerifyVersion(conn)`: the returned boolean, whether the
function closed the connection itself, and the lines it printed. -/
structure VerifyOutcome where
  ok : Bool
  closed : Bool
  printed : List String
deriving Repr

/-- `clientVerifyVersion(conn)` from utils.py, given the local protocol
version bytes `localVersion` (the module constant `VERSION`) and the
`GET /version` response.  Returns `false` and closes the connection when the
status is not OK; returns `false` (printing the mismatch) when the body is
not byte-for-byte equal to `localVersion`; returns `true` otherwise. -/
def clientVerifyVersion (localVersion : List Nat) (resp : VersionResponse) :
    VerifyOutcome :=
  if resp.status ≠ httpOK then
    { ok := false, closed := true, printed := [] }
  else if resp.body ≠ localVersion then
    { ok := false, closed := false,
      printed := ["Incorrect server version!",
        "expected " ++ decodeBytes localVersion ++ " received " ++
          decodeBytes resp.body] }
  else
    { ok := true, closed := false, printed := [] }

/-- The fields of `netsettings` read by `clientConnection`. -/
structure NetSettings where
  server_address : String
  server_port : Int
  use_ssl : Bool
deriving DecidableEq, Repr

/-- Environment of a connection attempt: either the attempt (constructor,
request or response) raises, or a transport connection is established and the
`GET /version` exchange yields the given response. -/
inductive ConnEvent where
  | raises : PyExc → ConnEvent
  | established : VersionResponse → ConnEvent
deriving DecidableEq, Repr

/-- Observable outcome of a `clientConnection` call: whether a live
connection object was returned, the exception propagated to the caller (if
any), whether the transport connection was closed, the lines printed, and
the sink messages. -/
structure ConnectOutcome where
  connection : Bool
  raised : Option PyExc
  connClosed : Bool
  printed : List String
  sink : List (String × String)
deriving Repr

/-- The body of `clientConnection`'s `try`/`except` once an address is in
hand: establish, verify the version, and route failures through
`reporting` / the blanket `except BaseException` handler. -/
def connectAttempt (localVersion : List Nat) (report : Bool) (ev : ConnEvent) :
    ConnectOutcome :=
  match ev with
  | ConnEvent.raises e =>
    if report then
      { connection := false, raised := none, connClosed := false,
        printed := [], sink := [("ERROR", e.msg)] }
    else
      { connection := false, raised := none, connClosed := false,
        printed := [e.msg], sink := [] }
  | ConnEvent.established resp =>
    let v := clientVerifyVersion localVersion resp
    if v.ok then
      { connection := true, raised := none, connClosed := false,
        printed := v.printed, sink := [] }
    else
      -- conn.close(); reporting(report, "Incorrect master version", ValueError)
      match reporting report "Incorrect master version" (some ErrKind.valueError) with
      | (Except.ok _, msgs) =>
        { connection := false, raised := none, connClosed := true,
          printed := v.printed, sink := msgs }
      | (Except.error e, _) =>
        -- the raise happens inside the try, so the blanket handler catches it
        if report then
          { connection := false, raised := none, connClosed := true,
            printed := v.printed, sink := [("ERROR", e.msg)] }
        else
          { connection := false, raised := none, connClosed := true,
            printed := v.printed ++ [e.msg], sink := [] }

/-- `clientConnection(netsettings, report, scan, timeout)` from utils.py.
`scanPacket` is the discovery environment (used only on the `"[default]"`
address path, where `clientScan()` is called with no report argument);
`ev` is the connection environment. -/
def clientConnection (localVersion : List Nat) (ns : NetSettings) (report : Bool)
    (scan : Bool) (scanPacket : Option (String × String)) (ev : ConnEvent) :
    ConnectOutcome :=
  if ns.server_address = "[default]" then
    if !scan then
      { connection := false, raised := none, connClosed := false,
        printed := [], sink := [] }
    else
      let sc := clientScan false scanPacket
      match sc.raised with
      | some e =>
        -- raised before the try block: propagates out of clientConnection
        { connection := false, raised := some e, connClosed := false,
          printed := [], sink := [] }
      | none =>
        match sc.result with
        | some (addr, _) =>
          if addr = "" then
            { connection := false, raised := none, connClosed := false,
              printed := [], sink := [] }
          else
            connectAttempt localVersion report ev
        | none =>
          { connection := false, raised := none, connClosed := false,
            printed := [], sink := [] }
  else
    connectAttempt localVersion report ev

/-- Decimal representation of a natural number (`"%i"` for `n ≥ 0`). -/
def natRepr (n : Nat) : String :=
  if n = 0 then "0" else ⟨(Nat.digits 10 n).reverse.map Nat.digitChar⟩

/-- Python `"%i" % i` for an `int`. -/
def pyIntRepr (i : Int) : String :=
  if i < 0 then "-" ++ natRepr (-i).toNat else natRepr i.toNat

/-- `fileURL(job_id, file_index)` = `"/file_%s_%i"`. -/
def fileURL (job_id : String) (file_index : Int) : String :=
  "/file_" ++ job_id ++ "_" ++ pyIntRepr file_index

/-- `logURL(job_id, frame_number)` = `"/log_%s_%i.log"`. -/
def logURL (job_id : String) (frame_number : Int) : String :=
  "/log_" ++ job_id ++ "_" ++ pyIntRepr frame_number ++ ".log"

/-- `resultURL(job_id)` = `"/result_%s.zip"`. -/
def resultURL (job_id : String) : String :=
  "/result_" ++ job_id ++ ".zip"

/-- `renderURL(job_id, frame_number)` = `"/render_%s_%i.exr"`. -/
def renderURL (job_id : String) (frame_number : Int) : String :=
  "/render_" ++ job_id ++ "_" ++ pyIntRepr frame_number ++ ".exr"

/-- `cancelURL(job_id)` = `"/cancel_%s"`. -/
def cancelURL (job_id : String) : String :=
  "/cancel_" ++ job_id

/-- Character-level `s[n:]` (Python slicing is by characters). -/
def strDrop (s : String) (n : Nat) : String := ⟨s.data.drop n⟩

/-- Character-level `s.startswith(pre)`. -/
def strStartsWith (s pre : String) : Bool := pre.data.isPrefixOf s.data

/-- Character-level `len(s)`. -/
def strLen (s : String) : Nat := s.data.length

/-- Split a character list on `'/'` (Python `path.split('/')`). -/
def splitSlash (l : List Char) : List (List Char) :=
  l.foldr (fun c acc =>
    if c = '/' then [] :: acc
    else match acc with
    | [] => [[c]]
    | g :: gs => (c :: g) :: gs) [[]]

/-- The component loop of `posixpath.normpath`: process components left to
right against a stack (`stack` holds the accepted components in reverse). -/
def normStack (rooted : Bool) : List (List Char) → List (List Char) → List (List Char)
  | stack, [] => stack
  | stack, c :: rest =>
    if c = [] ∨ c = ['.'] then normStack rooted stack rest
    else if c ≠ ['.', '.'] ∨ (¬rooted ∧ stack = []) ∨
        stack.head? = some ['.', '.'] then
      normStack rooted (c :: stack) rest
    else
      match stack with
      | _ :: s => normStack rooted s rest
      | [] => normStack rooted [] rest

/-- `posixpath.normpath` on a character list. -/
def posixNormpathL (l : List Char) : List Char :=
  if l = [] then ['.']
  else
    let slashes : Nat :=
      if l.take 3 = ['/', '/', '/'] then 1
      else if l.take 2 = ['/', '/'] then 2
      else if l.take 1 = ['/'] then 1
      else 0
    let comps := normStack (slashes ≠ 0) [] (splitSlash l)
    let res := List.replicate slashes '/' ++ List.intercalate ['/'] comps.reverse
    if res = [] then ['.'] else res

/-- `os.path.normpath` (POSIX host). -/
def posixNormpath (s : String) : String := ⟨posixNormpathL s.data⟩

/-- `posixpath.split` on a character list: split at the last `'/'`, then
strip trailing slashes from the head unless the head is all slashes. -/
def posixSplitL (l : List Char) : List Char × List Char :=
  let tail := (l.reverse.takeWhile (fun c => c ≠ '/')).reverse
  let head := l.take (l.length - tail.length)
  let head2 :=
    if head ≠ [] ∧ ¬(head.all (fun c => c = '/')) then
      (head.reverse.dropWhile (fun c => c = '/')).reverse
    else head
  (head2, tail)

/-- `os.path.split` (POSIX host). -/
def posixSplit (s : String) : String × String :=
  ((posixSplitL s.data).1.asString, (posixSplitL s.data).2.asString)

/-- `posixpath.join` of two arguments, on character lists. -/
def posixJoinL (a b : List Char) : List Char :=
  if b.take 1 = ['/'] then b
  else if a = [] ∨ a.getLast? = some '/' then a ++ b
  else a ++ '/' :: b

/-- `os.path.join` of two arguments (POSIX host). -/
def posixJoin (a b : String) : String := ⟨posixJoinL a.data b.data⟩

/-- `os.path.isabs` (POSIX host): starts with `'/'`. -/
def posixIsabs (s : String) : Bool := s.data.take 1 = ['/']

/-- The absoluteness test at the top of `prefixPath`, parametric in the host
`os.path.isabs`; `Except.error` is the `IndexError` that `file_path[0]`
raises on the empty string (the first two disjuncts short-circuit first). -/
def classifyAbs (isabsFn : String → Bool) (fp : String) : Except PyExc Bool :=
  if isabsFn fp then Except.ok true
  else if (fp.data.drop 1).take 2 = [':', '/'] ∨ (fp.data.drop 1).take 2 = [':', '\\'] then
    Except.ok true
  else
    match fp.data with
    | [] => Except.error PyExc.indexError
    | c :: _ => Except.ok (c = '/' ∨ c = '\\')

/-- `os.mkdir(d)` on the modelled filesystem: requires the parent directory
(`os.path.split(d)[0]`) to exist unless it is empty; on success the entry `d`
is added.  (A single level only — `os.mkdir` is not `os.makedirs`.) -/
def mkdirF (fs : String → Bool) (d : String) : Except PyExc (String → Bool) :=
  if (posixSplit d).1 = "" ∨ fs ((posixSplit d).1) then
    Except.ok (fun q => q == d || fs q)
  else Except.error (PyExc.fileNotFoundError d)

/-- `prefixPath(prefix_directory, file_path, prefix_path, force)` from
utils.py, on a POSIX host with filesystem `fs` (`fs q` = `os.path.exists(q)`).
Returns the resolved path together with the filesystem after any `os.mkdir`,
or the exception raised. -/
def prefixPath (fs : String → Bool) (prefix_directory file_path prefix_path : String)
    (force : Bool) : Except PyExc (String × (String → Bool)) :=
  match classifyAbs posixIsabs file_path with
  | Except.error e => Except.error e
  | Except.ok true =>
    if force ∨ ¬fs file_path then
      let np := posixNormpath file_path
      let p := (posixSplit np).1
      let n := (posixSplit np).2
      if prefix_path ≠ "" ∧ strStartsWith p prefix_path then
        if strLen prefix_path < strLen p then
          let directory := posixJoin prefix_directory (strDrop p (strLen prefix_path + 1))
          if fs directory then
            Except.ok (posixJoin directory n, fs)
          else
            match mkdirF fs directory with
            | Except.error e => Except.error e
            | Except.ok fs2 => Except.ok (posixJoin directory n, fs2)
        else
          Except.ok (posixJoin prefix_directory n, fs)
      else
        Except.ok (posixJoin prefix_directory n, fs)
    else
      Except.ok (file_path, fs)
  | Except.ok false =>
    Except.ok (posixJoin prefix_directory file_path, fs)

/-- Resolved path only. -/
def prefixPathR (fs : String → Bool) (prefix_directory file_path prefix_path : String)
    (force : Bool) : Except PyExc String :=
  (prefixPath fs prefix_directory file_path prefix_path force).map Prod.fst

/-- The path the C2 claim says a remapped absolute `file_path` resolves to:
split the normalized path into `p` and `n`; when `prefix_path` is non-empty
and a prefix of `p`, re-root the remainder of `p` (the part after the common
prefix and its separator) under `prefix_directory` and append `n` (directly
under `prefix_directory` when the remainder is empty); otherwise flatten to
`prefix_directory / n`. -/
def remapSpecPath (prefix_directory file_path prefix_path : String) : String :=
  if prefix_path ≠ "" ∧ strStartsWith (posixSplit (posixNormpath file_path)).1 prefix_path then
    if strDrop (posixSplit (posixNormpath file_path)).1 (strLen prefix_path + 1) = "" then
      posixJoin prefix_directory (posixSplit (posixNormpath file_path)).2
    else
      posixJoin
        (posixJoin prefix_directory
          (strDrop (posixSplit (posixNormpath file_path)).1 (strLen prefix_path + 1)))
        (posixSplit (posixNormpath file_path)).2
  else posixJoin prefix_directory (posixSplit (posixNormpath file_path)).2

/-- The C6 claim's syntactic absoluteness predicate: starts with `'/'` or
`'\'`, or the second and third characters are `":/"` or `":\"`. -/
def specAbsolute (fp : String) : Prop :=
  fp.data.take 1 = ['/'] ∨ fp.data.take 1 = ['\\'] ∨
  (fp.data.drop 1).take 2 = [':', '/'] ∨ (fp.data.drop 1).take 2 = [':', '\\']

instance (fp : String) : Decidable (specAbsolute fp) := by
  unfold specAbsolute; infer_instance

theorem applyOps_fields (ops : List BisOp) : ∀ s : BreakableIncrementedSleep,
    (applyOps s ops).increment = s.increment ∧ (applyOps s ops).default = s.default ∧
    (applyOps s ops).max = s.max := by
  induction ops with
  | nil => intro s; exact ⟨rfl, rfl, rfl⟩
  | cons op rest ih =>
    intro s
    have h := ih (applyOp s op)
    cases op <;> simpa [applyOps, applyOp, BreakableIncrementedSleep.reset,
      BreakableIncrementedSleep.increase] using h

theorem applyOps_inv (ops : List BisOp) : ∀ s : BreakableIncrementedSleep,
    0 ≤ s.increment → s.default ≤ s.max → s.default ≤ s.current → s.current ≤ s.max →
    s.default ≤ (applyOps s ops).current ∧ (applyOps s ops).current ≤ s.max := by
  induction ops with
  | nil => intro s _ _ h3 h4; exact ⟨h3, h4⟩
  | cons op rest ih =>
    rintro ⟨inc, d, mx, cur⟩ h1 h2 h3 h4
    cases op with
    | reset =>
      have key := ih ⟨inc, d, mx, d⟩ h1 h2 le_rfl h2
      simpa [applyOps, applyOp, BreakableIncrementedSleep.reset] using key
    | increase =>
      have h1' : (0 : Int) ≤ inc := h1
      have h2' : d ≤ mx := h2
      have h3' : d ≤ cur := h3
      have key := ih ⟨inc, d, mx, min (cur + inc) mx⟩ h1' h2'
        (le_min (le_trans h3' (by omega)) h2') (min_le_right _ _)
      simpa [applyOps, applyOp, BreakableIncrementedSleep.increase] using key

/-- C3 (counterexample): the claimed invariant `default ≤ current ≤ max` can
fail: the constructor does not require `default ≤ max`, so for the instance
`BreakableIncrementedSleep(1, 5, 3)` the state after a single `reset()` call
has `current = 5 > 3 = max`. -/
theorem C3_counterexample :
    (applyOps (BreakableIncrementedSleep.init 1 5 3) [BisOp.reset]).current = 5 ∧
    (applyOps (BreakableIncrementedSleep.init 1 5 3) [BisOp.reset]).max = 3 ∧
    ¬((applyOps (BreakableIncrementedSleep.init 1 5 3) [BisOp.reset]).current ≤
      (applyOps (BreakableIncrementedSleep.init 1 5 3) [BisOp.reset]).max) := by
  refine ⟨rfl, rfl, ?_⟩
  decide

/-- C3 (amended): for every `BreakableIncrementedSleep` instance whose
construction arguments are non-negative with `default ≤ max`, and every
finite sequence of `reset()`/`increase()` calls, `default ≤ current ≤ max`
holds after each call in the sequence (every prefix of a call sequence is
itself a call sequence, so quantifying over the sequence covers each step). -/
theorem C3_backoff_invariant (inc d mx : Int) (ops : List BisOp)
    (h1 : 0 ≤ inc) (h2 : d ≤ mx) :
    d ≤ (applyOps (BreakableIncrementedSleep.init inc d mx) ops).current ∧
    (applyOps (BreakableIncrementedSleep.init inc d mx) ops).current ≤ mx :=
  applyOps_inv ops (BreakableIncrementedSleep.init inc d mx) h1 h2 le_rfl h2

theorem C3_backoff_invariant_witness :
    ((0 : Int) ≤ 5 ∧ (5 : Int) ≤ 20) ∧
    (5 ≤ (applyOps (BreakableIncrementedSleep.init 5 5 20)
        [BisOp.increase, BisOp.reset, BisOp.increase]).current ∧
      (applyOps (BreakableIncrementedSleep.init 5 5 20)
        [BisOp.increase, BisOp.reset, BisOp.increase]).current ≤ 20) :=
  ⟨⟨by decide, by decide⟩,
    C3_backoff_invariant 5 5 20 [BisOp.increase, BisOp.reset, BisOp.increase]
      (by decide) (by decide)⟩

/-- C7: `increase()` sets `current` to `min(current + increment, max)` and
`reset()` sets `current` to `default`; from `default=5, increment=5, max=20`
successive `increase()` calls give currents 5, 10, 15, 20, 20, and a
`reset()` after any number of `increase()` calls returns `current` to 5. -/
theorem C7_backoff_arithmetic :
    (∀ s : BreakableIncrementedSleep,
      s.increase.current = min (s.current + s.increment) s.max ∧
      s.reset.current = s.default) ∧
    ((BreakableIncrementedSleep.init 5 5 20).current = 5 ∧
     (applyOps (BreakableIncrementedSleep.init 5 5 20)
       (List.replicate 1 BisOp.increase)).current = 10 ∧
     (applyOps (BreakableIncrementedSleep.init 5 5 20)
       (List.replicate 2 BisOp.increase)).current = 15 ∧
     (applyOps (BreakableIncrementedSleep.init 5 5 20)
       (List.replicate 3 BisOp.increase)).current = 20 ∧
     (applyOps (BreakableIncrementedSleep.init 5 5 20)
       (List.replicate 4 BisOp.increase)).current = 20) ∧
    (∀ n : Nat, ((applyOps (BreakableIncrementedSleep.init 5 5 20)
      (List.replicate n BisOp.increase)).reset).current = 5) := by
  refine ⟨fun s => ⟨rfl, rfl⟩, ⟨rfl, by decide, by decide, by decide, by decide⟩, ?_⟩
  intro n
  have h := (applyOps_fields (List.replicate n BisOp.increase)
    (BreakableIncrementedSleep.init 5 5 20)).2.1
  show (applyOps (BreakableIncrementedSleep.init 5 5 20)
    (List.replicate n BisOp.increase)).default = 5
  rw [h]
  rfl

theorem sleepUnits_eq_find (n : Nat) : ∀ brk : Nat → Bool,
    sleepUnits brk n = (match (List.range n).find? brk with
      | some i => i + 1
      | none => n) := by
  induction n with
  | zero => intro brk; rfl
  | succ m ih =>
    intro brk
    rw [List.range_succ_eq_map]
    by_cases h : brk 0
    · rw [List.find?_cons_of_pos _ h]
      simp [sleepUnits, h]
    · rw [List.find?_cons_of_neg _ h, List.find?_map]
      have hcomp : (brk ∘ Nat.succ) = fun i => brk (i + 1) := rfl
      rw [hcomp]
      simp only [sleepUnits]
      rw [if_neg h, ih (fun i => brk (i + 1))]
      cases hf : (List.range m).find? (fun i => brk (i + 1)) with
      | none =>
        show 1 + m = m + 1
        omega
      | some i =>
        show 1 + (i + 1) = i + 1 + 1
        omega

/-- C8: `sleep()` performs at most `current` one-unit sleeps; the number of
units slept is `i + 1` where `i` is the first check index at which the
caller-supplied break predicate is true (early return as soon as it becomes
true), and `current` when the predicate never becomes true; and the state on
every exit path is exactly `increase()` of the entry state. -/
theorem C8_sleep_contract (s : BreakableIncrementedSleep) (brk : Nat → Bool) :
    (s.sleep brk).2 = s.increase ∧
    (s.sleep brk).1 ≤ s.current.toNat ∧
    (s.sleep brk).1 = (match (List.range s.current.toNat).find? brk with
      | some i => i + 1
      | none => s.current.toNat) := by
  refine ⟨rfl, ?_, ?_⟩
  · rw [show (s.sleep brk).1 = sleepUnits brk s.current.toNat from rfl,
      sleepUnits_eq_find]
    cases hf : (List.range s.current.toNat).find? brk with
    | none => exact le_rfl
    | some i => exact List.mem_range.mp (List.mem_of_find?_eq_some hf)
  · exact sleepUnits_eq_find s.current.toNat brk

/-- C10: the absoluteness classification at the top of `prefixPath` is
defined only for non-empty `file_path`: on the empty string the first two
disjuncts are false (for any host `isabs` that rejects the empty string, as
both POSIX and Windows do) and the evaluation of `file_path[0]` raises
`IndexError`; `prefixPath` itself propagates that `IndexError` on the empty
string; and on every non-empty `file_path` the classification is total. -/
theorem C10_empty_file_path :
    (∀ isabsFn : String → Bool, isabsFn "" = false →
      classifyAbs isabsFn "" = Except.error PyExc.indexError) ∧
    (∀ (fs : String → Bool) (pd pp : String) (force : Bool),
      prefixPath fs pd "" pp force = Except.error PyExc.indexError) ∧
    (∀ fp : String, fp ≠ "" → ∃ b, classifyAbs posixIsabs fp = Except.ok b) := by
  refine ⟨?_, ?_, ?_⟩
  · intro f h
    simp [classifyAbs, h]
  · intro fs pd pp force
    rfl
  · intro fp h
    have hd : fp.data ≠ [] := by
      intro c
      exact h (String.ext (by rw [c]))
    unfold classifyAbs
    split
    · exact ⟨true, rfl⟩
    split
    · exact ⟨true, rfl⟩
    rcases hfp : fp.data with _ | ⟨c, cs⟩
    · exact absurd hfp hd
    · exact ⟨_, rfl⟩

theorem C10_empty_file_path_witness :
    (posixIsabs "" = false ∧
      classifyAbs posixIsabs "" = Except.error PyExc.indexError) ∧
    (("x/y" : String) ≠ "" ∧
      ∃ b, classifyAbs posixIsabs "x/y" = Except.ok b) :=
  ⟨⟨by decide, C10_empty_file_path.1 posixIsabs (by decide)⟩,
    ⟨by decide, C10_empty_file_path.2.2 "x/y" (by decide)⟩⟩

/-- C6: for every host `isabs` function (i.e. regardless of the host OS),
`prefixPath`'s classification judges `file_path` absolute whenever it starts
with `'/'` or `'\'` or its second and third characters are `":/"` or
`":\"`; and every `file_path` the classification judges relative resolves to
`prefix_directory` joined with `file_path` verbatim, with no filesystem
change. -/
theorem C6_syntactic_absoluteness :
    (∀ (isabsFn : String → Bool) (fp : String), specAbsolute fp →
      classifyAbs isabsFn fp = Except.ok true) ∧
    (∀ (fs : String → Bool) (pd fp pp : String) (force : Bool),
      classifyAbs posixIsabs fp = Except.ok false →
      prefixPath fs pd fp pp force = Except.ok (posixJoin pd fp, fs)) := by
  constructor
  · intro f fp h
    unfold specAbsolute at h
    unfold classifyAbs
    split
    · rfl
    split
    · rfl
    next hdrive =>
      rcases h with h1 | h1 | h1 | h1
      · rcases hfp : fp.data with _ | ⟨c, cs⟩
        · rw [hfp] at h1
          exact absurd h1 (by decide)
        · rw [hfp] at h1
          have hc : c = '/' := by simpa using h1
          simp [hc]
      · rcases hfp : fp.data with _ | ⟨c, cs⟩
        · rw [hfp] at h1
          exact absurd h1 (by decide)
        · rw [hfp] at h1
          have hc : c = '\\' := by simpa using h1
          simp [hc]
      · exact absurd (Or.inl h1) hdrive
      · exact absurd (Or.inr h1) hdrive
  · intro fs pd fp pp force h
    unfold prefixPath
    rw [h]

theorem C6_syntactic_absoluteness_witness :
    (specAbsolute "C:\\scene.blend" ∧
      classifyAbs (fun _ => false) "C:\\scene.blend" = Except.ok true) ∧
    (specAbsolute "/home/user/scene.blend" ∧
      classifyAbs posixIsabs "/home/user/scene.blend" = Except.ok true) ∧
    (classifyAbs posixIsabs "textures/wood.png" = Except.ok false ∧
      prefixPath (fun _ => false) "/job" "textures/wood.png" "" false =
        Except.ok (posixJoin "/job" "textures/wood.png", fun _ => false)) :=
  ⟨⟨by decide, C6_syntactic_absoluteness.1 (fun _ => false) _ (by decide)⟩,
    ⟨by decide, C6_syntactic_absoluteness.1 posixIsabs _ (by decide)⟩,
    ⟨by decide, C6_syntactic_absoluteness.2 (fun _ => false) "/job"
      "textures/wood.png" "" false (by decide)⟩⟩

/-- C5: `clientScan`'s failure contract.  With no packet in the window and no
reporting sink, the call raises the `NoMasterFound` error (the
`IOError("No master server on network")`); with a sink, the failure becomes a
sink message and the neutral default `("", 8000)` is returned; and when a
packet arrives whose payload parses as an ASCII decimal integer, the sender's
address and that integer are returned. -/
theorem C5_discovery_contract :
    ((clientScan false none).raised =
      some (PyExc.ioError "No master server on network") ∧
     (clientScan false none).result = none) ∧
    ((clientScan true none).result = some ("", 8000) ∧
     (clientScan true none).raised = none ∧
     (clientScan true none).sink = [("ERROR", "No master server on network")]) ∧
    (∀ (report : Bool) (payload addr : String) (port : Int),
      pyInt payload = some port →
      (clientScan report (some (payload, addr))).result = some (addr, port) ∧
      (clientScan report (some (payload, addr))).raised = none) := by
  refine ⟨⟨rfl, rfl⟩, ⟨rfl, rfl, rfl⟩, ?_⟩
  intro report payload addr port h
  dsimp only [clientScan]
  rw [h]
  exact ⟨rfl, rfl⟩

theorem C5_discovery_contract_witness :
    pyInt "8000" = some 8000 ∧
    (clientScan false (some ("8000", "10.0.0.7"))).result =
      some ("10.0.0.7", 8000) :=
  ⟨by decide,
    (C5_discovery_contract.2.2 false "8000" "10.0.0.7" 8000 (by decide)).1⟩

/-- C1 (counterexample): a handshake failure with no reporting sink does NOT
raise the `VersionMismatch` error to the caller.  With local version bytes
`[49]` and a `GET /version` response of status 200 with body `[50]` (a
byte-for-byte mismatch), `clientConnection` with `report` absent returns null
with no exception propagated: the `ValueError` raised by `reporting` inside
the `try` block is caught by the blanket `except BaseException` handler,
which prints it and returns `None`. -/
theorem C1_counterexample :
    ([50] ≠ ([49] : List Nat)) ∧
    (clientConnection [49] ⟨"203.0.113.5", 8000, false⟩ false true none
      (ConnEvent.established ⟨200, [50]⟩)).raised = none ∧
    (clientConnection [49] ⟨"203.0.113.5", 8000, false⟩ false true none
      (ConnEvent.established ⟨200, [50]⟩)).connection = false ∧
    ¬((clientConnection [49] ⟨"203.0.113.5", 8000, false⟩ false true none
      (ConnEvent.established ⟨200, [50]⟩)).raised =
        some (PyExc.valueError "Incorrect master version")) := by
  refine ⟨by decide, rfl, rfl, by decide⟩

/-- C1 (amended): on handshake failure (non-OK status or body differing from
the local protocol version) `clientConnection` closes the transport
connection and returns null; but the `VersionMismatch` `ValueError` is never
propagated to the caller: with a sink it becomes an ERROR sink message, and
without a sink it is raised inside the `try` block, caught by the blanket
`except BaseException` handler, printed, and null is returned. -/
theorem C1_handshake_failure (localVersion : List Nat) (ns : NetSettings)
    (report scan : Bool) (pkt : Option (String × String)) (resp : VersionResponse)
    (haddr : ns.server_address ≠ "[default]")
    (hfail : resp.status ≠ httpOK ∨ resp.body ≠ localVersion) :
    (clientConnection localVersion ns report scan pkt
      (ConnEvent.established resp)).connection = false ∧
    (clientConnection localVersion ns report scan pkt
      (ConnEvent.established resp)).connClosed = true ∧
    (clientConnection localVersion ns report scan pkt
      (ConnEvent.established resp)).raised = none ∧
    (report = false → "Incorrect master version" ∈
      (clientConnection localVersion ns report scan pkt
        (ConnEvent.established resp)).printed) ∧
    (report = true → ("ERROR", "Incorrect master version") ∈
      (clientConnection localVersion ns report scan pkt
        (ConnEvent.established resp)).sink) := by
  unfold clientConnection
  rw [if_neg haddr]
  dsimp only [connectAttempt]
  have hok : (clientVerifyVersion localVersion resp).ok = false := by
    unfold clientVerifyVersion
    rcases hfail with h | h
    · rw [if_pos h]
    · by_cases hs : resp.status ≠ httpOK
      · rw [if_pos hs]
      · rw [if_neg hs, if_pos h]
  rw [hok]
  cases report with
  | false => simp [reporting, ErrKind.toExc, PyExc.msg]
  | true => simp [reporting]

theorem C1_handshake_failure_witness :
    ((⟨"203.0.113.6", 8000, false⟩ : NetSettings).server_address ≠ "[default]") ∧
    ((⟨200, [50]⟩ : VersionResponse).status ≠ httpOK ∨
      (⟨200, [50]⟩ : VersionResponse).body ≠ [49]) ∧
    ((clientConnection [49] ⟨"203.0.113.6", 8000, false⟩ true true none
        (ConnEvent.established ⟨200, [50]⟩)).connection = false ∧
      (clientConnection [49] ⟨"203.0.113.6", 8000, false⟩ true true none
        (ConnEvent.established ⟨200, [50]⟩)).connClosed = true ∧
      (clientConnection [49] ⟨"203.0.113.6", 8000, false⟩ true true none
        (ConnEvent.established ⟨200, [50]⟩)).raised = none ∧
      (true = false → "Incorrect master version" ∈
        (clientConnection [49] ⟨"203.0.113.6", 8000, false⟩ true true none
          (ConnEvent.established ⟨200, [50]⟩)).printed) ∧
      (true = true → ("ERROR", "Incorrect master version") ∈
        (clientConnection [49] ⟨"203.0.113.6", 8000, false⟩ true true none
          (ConnEvent.established ⟨200, [50]⟩)).sink)) :=
  ⟨by decide, by decide,
    C1_handshake_failure [49] ⟨"203.0.113.6", 8000, false⟩ true true none
      ⟨200, [50]⟩ (by decide) (by decide)⟩

theorem digitChar_ne_special (d : Nat) (hd : d < 10) :
    Nat.digitChar d ≠ '_' ∧ Nat.digitChar d ≠ '-' := by
  interval_cases d <;> exact ⟨by decide, by decide⟩

theorem digitChar_inj_lt (a b : Nat) (ha : a < 10) (hb : b < 10)
    (h : Nat.digitChar a = Nat.digitChar b) : a = b := by
  interval_cases a <;> interval_cases b <;> revert h <;> decide

theorem natRepr_chars (n : Nat) : ∀ c ∈ (natRepr n).data, c ≠ '_' ∧ c ≠ '-' := by
  intro c hc
  unfold natRepr at hc
  by_cases h : n = 0
  · rw [if_pos h] at hc
    have hc' : c ∈ ['0'] := hc
    have : c = '0' := by simpa using hc'
    subst this
    exact ⟨by decide, by decide⟩
  · rw [if_neg h] at hc
    have hc' : c ∈ (Nat.digits 10 n).reverse.map Nat.digitChar := hc
    rcases List.mem_map.mp hc' with ⟨d, hd, hdc⟩
    have hlt : d < 10 :=
      Nat.digits_lt_base (by norm_num) (List.mem_reverse.mp hd)
    rw [← hdc]
    exact digitChar_ne_special d hlt

theorem map_digitChar_inj : ∀ (l1 l2 : List Nat), (∀ x ∈ l1, x < 10) →
    (∀ x ∈ l2, x < 10) → l1.map Nat.digitChar = l2.map Nat.digitChar → l1 = l2 := by
  intro l1
  induction l1 with
  | nil =>
    intro l2 _ _ h
    cases l2 with
    | nil => rfl
    | cons b bs => simp at h
  | cons a as ih =>
    intro l2 h1 h2 h
    cases l2 with
    | nil => simp at h
    | cons b bs =>
      simp only [List.map_cons, List.cons.injEq] at h
      have ha : a < 10 := h1 a (by simp)
      have hb : b < 10 := h2 b (by simp)
      have hab : a = b := digitChar_inj_lt a b ha hb h.1
      rw [hab, ih bs (fun x hx => h1 x (by simp [hx]))
        (fun x hx => h2 x (by simp [hx])) h.2]

theorem natRepr_inj (m n : Nat) (h : natRepr m = natRepr n) : m = n := by
  have hdata := congrArg String.data h
  unfold natRepr at hdata
  by_cases hm : m = 0 <;> by_cases hn : n = 0
  · rw [hm, hn]
  · exfalso
    rw [if_pos hm, if_neg hn] at hdata
    have hd : ['0'] = (Nat.digits 10 n).reverse.map Nat.digitChar := hdata
    have hlen := congrArg List.length hd
    simp at hlen
    rcases List.length_eq_one.mp hlen.symm with ⟨d, hL⟩
    rw [hL] at hd
    simp at hd
    have hlt : d < 10 := Nat.digits_lt_base (by norm_num) (by rw [hL]; simp)
    have hd0 : d = 0 := digitChar_inj_lt d 0 hlt (by norm_num) hd.symm
    have hofd := Nat.ofDigits_digits 10 n
    rw [hL, hd0] at hofd
    simp [Nat.ofDigits] at hofd
    exact hn hofd.symm
  · exfalso
    rw [if_neg hm, if_pos hn] at hdata
    have hd : (Nat.digits 10 m).reverse.map Nat.digitChar = ['0'] := hdata
    have hlen := congrArg List.length hd
    simp at hlen
    rcases List.length_eq_one.mp hlen with ⟨d, hL⟩
    rw [hL] at hd
    simp at hd
    have hlt : d < 10 := Nat.digits_lt_base (by norm_num) (by rw [hL]; simp)
    have hd0 : d = 0 := digitChar_inj_lt d 0 hlt (by norm_num) hd
    have hofd := Nat.ofDigits_digits 10 m
    rw [hL, hd0] at hofd
    simp [Nat.ofDigits] at hofd
    exact hm hofd.symm
  · rw [if_neg hm, if_neg hn] at hdata
    have hd : (Nat.digits 10 m).reverse.map Nat.digitChar =
        (Nat.digits 10 n).reverse.map Nat.digitChar := hdata
    have hrev := map_digitChar_inj _ _
      (fun x hx => Nat.digits_lt_base (by norm_num) (List.mem_reverse.mp hx))
      (fun x hx => Nat.digits_lt_base (by norm_num) (List.mem_reverse.mp hx)) hd
    have hdig : Nat.digits 10 m = Nat.digits 10 n := List.reverse_inj.mp hrev
    have h1 := Nat.ofDigits_digits 10 m
    rw [hdig, Nat.ofDigits_digits] at h1
    exact h1.symm

theorem pyIntRepr_chars (i : Int) : ∀ c ∈ (pyIntRepr i).data, c ≠ '_' := by
  intro c hc
  unfold pyIntRepr at hc
  by_cases h : i < 0
  · rw [if_pos h] at hc
    rw [String.data_append] at hc
    have hc' : c ∈ '-' :: (natRepr (-i).toNat).data := hc
    rcases List.mem_cons.mp hc' with h1 | h1
    · subst h1; decide
    · exact (natRepr_chars _ c h1).1
  · rw [if_neg h] at hc
    exact (natRepr_chars _ c hc).1

theorem pyIntRepr_inj (i j : Int) (h : pyIntRepr i = pyIntRepr j) : i = j := by
  unfold pyIntRepr at h
  by_cases hi : i < 0 <;> by_cases hj : j < 0
  · rw [if_pos hi, if_pos hj] at h
    have hd := congrArg String.data h
    rw [String.data_append, String.data_append] at hd
    have hd2 : '-' :: (natRepr (-i).toNat).data =
        '-' :: (natRepr (-j).toNat).data := hd
    have h3 := natRepr_inj _ _ (String.ext (List.cons.inj hd2).2)
    omega
  · exfalso
    rw [if_pos hi, if_neg hj] at h
    have hd := congrArg String.data h
    rw [String.data_append] at hd
    have hmem : '-' ∈ (natRepr j.toNat).data := by
      rw [← hd]
      exact List.mem_append.mpr (Or.inl (by decide))
    exact (natRepr_chars _ '-' hmem).2 rfl
  · exfalso
    rw [if_neg hi, if_pos hj] at h
    have hd := congrArg String.data h
    rw [String.data_append] at hd
    have hmem : '-' ∈ (natRepr i.toNat).data := by
      rw [hd]
      exact List.mem_append.mpr (Or.inl (by decide))
    exact (natRepr_chars _ '-' hmem).2 rfl
  · rw [if_neg hi, if_neg hj] at h
    have h3 := natRepr_inj _ _ h
    omega

theorem sep_append_inj : ∀ (a c b d : List Char), '_' ∉ b → '_' ∉ d →
    a ++ '_' :: b = c ++ '_' :: d → a = c ∧ b = d := by
  intro a
  induction a with
  | nil =>
    intro c b d hb hd h
    cases c with
    | nil =>
      simp only [List.nil_append] at h
      exact ⟨rfl, (List.cons.inj h).2⟩
    | cons x xs =>
      simp only [List.nil_append, List.cons_append] at h
      obtain ⟨h1, h2⟩ := List.cons.inj h
      exfalso
      apply hb
      rw [h2]
      exact List.mem_append.mpr (Or.inr (by simp))
  | cons y ys ih =>
    intro c b d hb hd h
    cases c with
    | nil =>
      simp only [List.cons_append, List.nil_append] at h
      obtain ⟨h1, h2⟩ := List.cons.inj h
      exfalso
      apply hd
      rw [← h2]
      exact List.mem_append.mpr (Or.inr (by simp))
    | cons x xs =>
      simp only [List.cons_append] at h
      obtain ⟨h1, h2⟩ := List.cons.inj h
      obtain ⟨ha, hbd⟩ := ih xs b d hb hd h2
      exact ⟨by rw [h1, ha], hbd⟩

theorem url_encode_inj (pre : String) (sfx : List Char) (hsfx : '_' ∉ sfx)
    (j1 j2 : String) (i1 i2 : Int)
    (h : pre.data ++ (j1.data ++ '_' :: ((pyIntRepr i1).data ++ sfx)) =
         pre.data ++ (j2.data ++ '_' :: ((pyIntRepr i2).data ++ sfx))) :
    j1 = j2 ∧ i1 = i2 := by
  have h1 := List.append_cancel_left h
  have hb : '_' ∉ (pyIntRepr i1).data ++ sfx := by
    intro hmem
    rcases List.mem_append.mp hmem with hm | hm
    · exact (pyIntRepr_chars i1 _ hm) rfl
    · exact hsfx hm
  have hd : '_' ∉ (pyIntRepr i2).data ++ sfx := by
    intro hmem
    rcases List.mem_append.mp hmem with hm | hm
    · exact (pyIntRepr_chars i2 _ hm) rfl
    · exact hsfx hm
  obtain ⟨hj, hrest⟩ := sep_append_inj _ _ _ _ hb hd h1
  have hrepr : (pyIntRepr i1).data = (pyIntRepr i2).data :=
    List.append_cancel_right hrest
  exact ⟨String.ext hj, pyIntRepr_inj _ _ (String.ext hrepr)⟩

theorem fileURL_data (j : String) (i : Int) :
    (fileURL j i).data = "/file_".data ++ (j.data ++ '_' :: ((pyIntRepr i).data ++ [])) := by
  unfold fileURL
  rw [String.data_append, String.data_append, String.data_append]
  simp

theorem logURL_data (j : String) (i : Int) :
    (logURL j i).data =
      "/log_".data ++ (j.data ++ '_' :: ((pyIntRepr i).data ++ ".log".data)) := by
  unfold logURL
  rw [String.data_append, String.data_append, String.data_append, String.data_append]
  simp

theorem renderURL_data (j : String) (i : Int) :
    (renderURL j i).data =
      "/render_".data ++ (j.data ++ '_' :: ((pyIntRepr i).data ++ ".exr".data)) := by
  unfold renderURL
  rw [String.data_append, String.data_append, String.data_append, String.data_append]
  simp

theorem resultURL_data (j : String) :
    (resultURL j).data = "/result_".data ++ (j.data ++ ".zip".data) := by
  unfold resultURL
  rw [String.data_append, String.data_append]
  simp

theorem cancelURL_data (j : String) :
    (cancelURL j).data = "/cancel_".data ++ (j.data ++ []) := by
  unfold cancelURL
  rw [String.data_append]
  simp

theorem fileURL_take2 (j : String) (i : Int) :
    (fileURL j i).data.take 2 = ['/', 'f'] := by
  rw [fileURL_data, List.take_append_of_le_length (by decide)]
  decide

theorem logURL_take2 (j : String) (i : Int) :
    (logURL j i).data.take 2 = ['/', 'l'] := by
  rw [logURL_data, List.take_append_of_le_length (by decide)]
  decide

theorem renderURL_take4 (j : String) (i : Int) :
    (renderURL j i).data.take 4 = ['/', 'r', 'e', 'n'] := by
  rw [renderURL_data, List.take_append_of_le_length (by decide)]
  decide

theorem renderURL_take2 (j : String) (i : Int) :
    (renderURL j i).data.take 2 = ['/', 'r'] := by
  rw [renderURL_data, List.take_append_of_le_length (by decide)]
  decide

theorem resultURL_take4 (j : String) :
    (resultURL j).data.take 4 = ['/', 'r', 'e', 's'] := by
  rw [resultURL_data, List.take_append_of_le_length (by decide)]
  decide

theorem resultURL_take2 (j : String) :
    (resultURL j).data.take 2 = ['/', 'r'] := by
  rw [resultURL_data, List.take_append_of_le_length (by decide)]
  decide

theorem cancelURL_take2 (j : String) :
    (cancelURL j).data.take 2 = ['/', 'c'] := by
  rw [cancelURL_data, List.take_append_of_le_length (by decide)]
  decide

/-- C4: each URL template is a pure function returning exactly the path
shape of the protocol table, each template is injective on its key (distinct
`(job_id, index)` pairs, or distinct `job_id`s for the one-argument
templates, give distinct URLs), and URLs produced by two different templates
are always distinct. -/
theorem C4_url_templates :
    ((∀ j i, fileURL j i = "/file_" ++ j ++ "_" ++ pyIntRepr i) ∧
     (∀ j i, logURL j i = "/log_" ++ j ++ "_" ++ pyIntRepr i ++ ".log") ∧
     (∀ j, resultURL j = "/result_" ++ j ++ ".zip") ∧
     (∀ j i, renderURL j i = "/render_" ++ j ++ "_" ++ pyIntRepr i ++ ".exr") ∧
     (∀ j, cancelURL j = "/cancel_" ++ j)) ∧
    ((∀ j1 i1 j2 i2, (j1, i1) ≠ (j2, i2) → fileURL j1 i1 ≠ fileURL j2 i2) ∧
     (∀ j1 i1 j2 i2, (j1, i1) ≠ (j2, i2) → logURL j1 i1 ≠ logURL j2 i2) ∧
     (∀ j1 j2, j1 ≠ j2 → resultURL j1 ≠ resultURL j2) ∧
     (∀ j1 i1 j2 i2, (j1, i1) ≠ (j2, i2) → renderURL j1 i1 ≠ renderURL j2 i2) ∧
     (∀ j1 j2, j1 ≠ j2 → cancelURL j1 ≠ cancelURL j2)) ∧
    ((∀ j1 i1 j2 i2, fileURL j1 i1 ≠ logURL j2 i2) ∧
     (∀ j1 i1 j2, fileURL j1 i1 ≠ resultURL j2) ∧
     (∀ j1 i1 j2 i2, fileURL j1 i1 ≠ renderURL j2 i2) ∧
     (∀ j1 i1 j2, fileURL j1 i1 ≠ cancelURL j2) ∧
     (∀ j1 i1 j2, logURL j1 i1 ≠ resultURL j2) ∧
     (∀ j1 i1 j2 i2, logURL j1 i1 ≠ renderURL j2 i2) ∧
     (∀ j1 i1 j2, logURL j1 i1 ≠ cancelURL j2) ∧
     (∀ j1 j2 i2, resultURL j1 ≠ renderURL j2 i2) ∧
     (∀ j1 j2, resultURL j1 ≠ cancelURL j2) ∧
     (∀ j1 i1 j2, renderURL j1 i1 ≠ cancelURL j2)) := by
  refine ⟨⟨fun j i => rfl, fun j i => rfl, fun j => rfl, fun j i => rfl,
    fun j => rfl⟩, ⟨?_, ?_, ?_, ?_, ?_⟩, ⟨?_, ?_, ?_, ?_, ?_, ?_, ?_, ?_, ?_, ?_⟩⟩
  · intro j1 i1 j2 i2 hne h
    have hd := congrArg String.data h
    rw [fileURL_data, fileURL_data] at hd
    obtain ⟨hj, hi⟩ := url_encode_inj "/file_" [] (by decide) j1 j2 i1 i2 hd
    exact hne (by rw [hj, hi])
  · intro j1 i1 j2 i2 hne h
    have hd := congrArg String.data h
    rw [logURL_data, logURL_data] at hd
    obtain ⟨hj, hi⟩ := url_encode_inj "/log_" ".log".data (by decide) j1 j2 i1 i2 hd
    exact hne (by rw [hj, hi])
  · intro j1 j2 hne h
    have hd := congrArg String.data h
    rw [resultURL_data, resultURL_data] at hd
    have h1 := List.append_cancel_left hd
    exact hne (String.ext (List.append_cancel_right h1))
  · intro j1 i1 j2 i2 hne h
    have hd := congrArg String.data h
    rw [renderURL_data, renderURL_data] at hd
    obtain ⟨hj, hi⟩ := url_encode_inj "/render_" ".exr".data (by decide) j1 j2 i1 i2 hd
    exact hne (by rw [hj, hi])
  · intro j1 j2 hne h
    have hd := congrArg String.data h
    rw [cancelURL_data, cancelURL_data] at hd
    have h1 := List.append_cancel_left hd
    exact hne (String.ext (List.append_cancel_right h1))
  · intro j1 i1 j2 i2 h
    have := congrArg (fun s => s.data.take 2) h
    rw [show (fun s => s.data.take 2) (fileURL j1 i1) = (fileURL j1 i1).data.take 2 from rfl,
      show (fun s => s.data.take 2) (logURL j2 i2) = (logURL j2 i2).data.take 2 from rfl,
      fileURL_take2, logURL_take2] at this
    exact absurd this (by decide)
  · intro j1 i1 j2 h
    have := congrArg (fun s => s.data.take 2) h
    rw [show (fun s => s.data.take 2) (fileURL j1 i1) = (fileURL j1 i1).data.take 2 from rfl,
      show (fun s => s.data.take 2) (resultURL j2) = (resultURL j2).data.take 2 from rfl,
      fileURL_take2, resultURL_take2] at this
    exact absurd this (by decide)
  · intro j1 i1 j2 i2 h
    have := congrArg (fun s => s.data.take 2) h
    rw [show (fun s => s.data.take 2) (fileURL j1 i1) = (fileURL j1 i1).data.take 2 from rfl,
      show (fun s => s.data.take 2) (renderURL j2 i2) = (renderURL j2 i2).data.take 2 from rfl,
      fileURL_take2, renderURL_take2] at this
    exact absurd this (by decide)
  · intro j1 i1 j2 h
    have := congrArg (fun s => s.data.take 2) h
    rw [show (fun s => s.data.take 2) (fileURL j1 i1) = (fileURL j1 i1).data.take 2 from rfl,
      show (fun s => s.data.take 2) (cancelURL j2) = (cancelURL j2).data.take 2 from rfl,
      fileURL_take2, cancelURL_take2] at this
    exact absurd this (by decide)
  · intro j1 i1 j2 h
    have := congrArg (fun s => s.data.take 2) h
    rw [show (fun s => s.data.take 2) (logURL j1 i1) = (logURL j1 i1).data.take 2 from rfl,
      show (fun s => s.data.take 2) (resultURL j2) = (resultURL j2).data.take 2 from rfl,
      logURL_take2, resultURL_take2] at this
    exact absurd this (by decide)
  · intro j1 i1 j2 i2 h
    have := congrArg (fun s => s.data.take 2) h
    rw [show (fun s => s.data.take 2) (logURL j1 i1) = (logURL j1 i1).data.take 2 from rfl,
      show (fun s => s.data.take 2) (renderURL j2 i2) = (renderURL j2 i2).data.take 2 from rfl,
      logURL_take2, renderURL_take2] at this
    exact absurd this (by decide)
  · intro j1 i1 j2 h
    have := congrArg (fun s => s.data.take 2) h
    rw [show (fun s => s.data.take 2) (logURL j1 i1) = (logURL j1 i1).data.take 2 from rfl,
      show (fun s => s.data.take 2) (cancelURL j2) = (cancelURL j2).data.take 2 from rfl,
      logURL_take2, cancelURL_take2] at this
    exact absurd this (by decide)
  · intro j1 j2 i2 h
    have := congrArg (fun s => s.data.take 4) h
    rw [show (fun s => s.data.take 4) (resultURL j1) = (resultURL j1).data.take 4 from rfl,
      show (fun s => s.data.take 4) (renderURL j2 i2) = (renderURL j2 i2).data.take 4 from rfl,
      resultURL_take4, renderURL_take4] at this
    exact absurd this (by decide)
  · intro j1 j2 h
    have := congrArg (fun s => s.data.take 2) h
    rw [show (fun s => s.data.take 2) (resultURL j1) = (resultURL j1).data.take 2 from rfl,
      show (fun s => s.data.take 2) (cancelURL j2) = (cancelURL j2).data.take 2 from rfl,
      resultURL_take2, cancelURL_take2] at this
    exact absurd this (by decide)
  · intro j1 i1 j2 h
    have := congrArg (fun s => s.data.take 2) h
    rw [show (fun s => s.data.take 2) (renderURL j1 i1) = (renderURL j1 i1).data.take 2 from rfl,
      show (fun s => s.data.take 2) (cancelURL j2) = (cancelURL j2).data.take 2 from rfl,
      renderURL_take2, cancelURL_take2] at this
    exact absurd this (by decide)

theorem C4_url_templates_witness :
    (("jobA", (3 : Int)) ≠ ("jobB", (3 : Int)) ∧
      fileURL "jobA" 3 ≠ fileURL "jobB" 3) ∧
    (("job" : String) ≠ "job2" ∧ resultURL "job" ≠ resultURL "job2") :=
  ⟨⟨by decide, C4_url_templates.2.1.1 "jobA" 3 "jobB" 3 (by decide)⟩,
    ⟨by decide, C4_url_templates.2.1.2.2.1 "job" "job2" (by decide)⟩⟩

theorem prefixPath_classify_error (fs : String → Bool) (pd fp pp : String)
    (force : Bool) (e : PyExc) (h : classifyAbs posixIsabs fp = Except.error e) :
    prefixPath fs pd fp pp force = Except.error e := by
  unfold prefixPath
  rw [h]

theorem prefixPath_rel (fs : String → Bool) (pd fp pp : String) (force : Bool)
    (h : classifyAbs posixIsabs fp = Except.ok false) :
    prefixPath fs pd fp pp force = Except.ok (posixJoin pd fp, fs) := by
  unfold prefixPath
  rw [h]

theorem prefixPath_abs (fs : String → Bool) (pd fp pp : String) (force : Bool)
    (h : classifyAbs posixIsabs fp = Except.ok true) :
    prefixPath fs pd fp pp force =
      (if force ∨ ¬fs fp then
        (if pp ≠ "" ∧ strStartsWith (posixSplit (posixNormpath fp)).1 pp then
          (if strLen pp < strLen (posixSplit (posixNormpath fp)).1 then
            (if fs (posixJoin pd (strDrop (posixSplit (posixNormpath fp)).1
                (strLen pp + 1))) then
              Except.ok (posixJoin
                (posixJoin pd (strDrop (posixSplit (posixNormpath fp)).1
                  (strLen pp + 1)))
                (posixSplit (posixNormpath fp)).2, fs)
            else
              match mkdirF fs (posixJoin pd (strDrop (posixSplit (posixNormpath fp)).1
                  (strLen pp + 1))) with
              | Except.error e => Except.error e
              | Except.ok fs2 =>
                Except.ok (posixJoin
                  (posixJoin pd (strDrop (posixSplit (posixNormpath fp)).1
                    (strLen pp + 1)))
                  (posixSplit (posixNormpath fp)).2, fs2))
          else Except.ok (posixJoin pd (posixSplit (posixNormpath fp)).2, fs))
        else Except.ok (posixJoin pd (posixSplit (posixNormpath fp)).2, fs))
      else Except.ok (fp, fs)) := by
  unfold prefixPath
  rw [h]

theorem strStartsWith_length (p pp : String) (h : strStartsWith p pp = true) :
    strLen pp ≤ strLen p :=
  (List.isPrefixOf_iff_prefix.mp h).length_le

theorem strDrop_eq_empty (p : String) (k : Nat) (h : strLen p ≤ k) :
    strDrop p k = "" :=
  String.ext (List.drop_eq_nil_of_le h)

theorem posixJoinL_empty (a b : List Char) :
    posixJoinL (posixJoinL a []) b = posixJoinL a b := by
  by_cases hb : b.take 1 = ['/']
  · conv_lhs => rw [posixJoinL, if_pos hb]
    rw [posixJoinL, if_pos hb]
  · by_cases ha : a = [] ∨ a.getLast? = some '/'
    · have h1 : posixJoinL a [] = a := by
        rw [posixJoinL, if_neg (by decide), if_pos ha, List.append_nil]
      rw [h1]
    · have h1 : posixJoinL a [] = a ++ ['/'] := by
        rw [posixJoinL, if_neg (by decide), if_neg ha]
      rw [h1]
      conv_lhs => rw [posixJoinL, if_neg hb,
        if_pos (Or.inr (List.getLast?_concat a))]
      rw [posixJoinL, if_neg hb, if_neg ha]
      simp

theorem posixJoin_empty (a b : String) :
    posixJoin (posixJoin a "") b = posixJoin a b :=
  String.ext (posixJoinL_empty a.data b.data)

/-- C2 (counterexample): intermediate directories are NOT created as needed.
With only `/dst` existing, remapping `/src/a/b/n.txt` under `/dst` with
`prefix_path = /src` needs the leaf directory `/dst/a/b`, whose parent
`/dst/a` does not exist; the code calls the single-level `os.mkdir`, which
raises `FileNotFoundError` instead of returning the re-rooted path
`/dst/a/b/n.txt` that the claim describes. -/
theorem C2_counterexample :
    prefixPathR (fun q => q == "/dst") "/dst" "/src/a/b/n.txt" "/src" false =
      Except.error (PyExc.fileNotFoundError "/dst/a/b") ∧
    remapSpecPath "/dst" "/src/a/b/n.txt" "/src" = "/dst/a/b/n.txt" := by
  exact ⟨by decide, by decide⟩

/-- C2 (amended): for every remapped absolute `file_path` (force set, or the
path does not exist), `prefixPath` splits the normalized path into parent `p`
and filename `n`; if `prefix_path` is non-empty and a prefix of `p`, the
result is `prefix_directory` joined with the remainder of `p` after the
common prefix and its separator, joined with `n` (directly under
`prefix_directory` when the remainder is empty); otherwise the result is
`prefix_directory` joined with `n` alone.  Only the leaf directory of the
remainder is created when missing, and only if its parent already exists
(the hypothesis below); when intermediate directories are missing the call
raises instead of creating them. -/
theorem C2_remap_absolute (fs : String → Bool) (pd fp pp : String) (force : Bool)
    (habs : classifyAbs posixIsabs fp = Except.ok true)
    (hremap : force ∨ ¬fs fp)
    (hmkdir : pp ≠ "" ∧ strStartsWith (posixSplit (posixNormpath fp)).1 pp ∧
        strLen pp < strLen (posixSplit (posixNormpath fp)).1 →
      (fs (posixJoin pd (strDrop (posixSplit (posixNormpath fp)).1
          (strLen pp + 1))) = true ∨
        (posixSplit (posixJoin pd (strDrop (posixSplit (posixNormpath fp)).1
          (strLen pp + 1)))).1 = "" ∨
        fs ((posixSplit (posixJoin pd (strDrop (posixSplit (posixNormpath fp)).1
          (strLen pp + 1)))).1) = true)) :
    ∃ fs2, prefixPath fs pd fp pp force =
      Except.ok (remapSpecPath pd fp pp, fs2) := by
  rw [prefixPath_abs fs pd fp pp force habs, if_pos hremap]
  unfold remapSpecPath
  by_cases hb : pp ≠ "" ∧ strStartsWith (posixSplit (posixNormpath fp)).1 pp
  · rw [if_pos hb, if_pos hb]
    by_cases hlt : strLen pp < strLen (posixSplit (posixNormpath fp)).1
    · rw [if_pos hlt]
      have hdd := hmkdir ⟨hb.1, hb.2, hlt⟩
      by_cases hrem : strDrop (posixSplit (posixNormpath fp)).1 (strLen pp + 1) = ""
      · rw [if_pos hrem, hrem]
        by_cases hfsd : fs (posixJoin pd "") = true
        · rw [if_pos hfsd, posixJoin_empty]
          exact ⟨fs, rfl⟩
        · rw [if_neg hfsd]
          rw [hrem] at hdd
          rcases hdd with hdd | hdd | hdd
          · exact absurd hdd hfsd
          · unfold mkdirF
            rw [if_pos (Or.inl hdd), posixJoin_empty]
            exact ⟨_, rfl⟩
          · unfold mkdirF
            rw [if_pos (Or.inr hdd), posixJoin_empty]
            exact ⟨_, rfl⟩
      · rw [if_neg hrem]
        by_cases hfsd : fs (posixJoin pd (strDrop (posixSplit (posixNormpath fp)).1
            (strLen pp + 1))) = true
        · rw [if_pos hfsd]
          exact ⟨fs, rfl⟩
        · rw [if_neg hfsd]
          rcases hdd with hdd | hdd | hdd
          · exact absurd hdd hfsd
          · unfold mkdirF
            rw [if_pos (Or.inl hdd)]
            exact ⟨_, rfl⟩
          · unfold mkdirF
            rw [if_pos (Or.inr hdd)]
            exact ⟨_, rfl⟩
    · rw [if_neg hlt]
      have hle : strLen (posixSplit (posixNormpath fp)).1 ≤ strLen pp :=
        le_of_not_lt hlt
      have hrem : strDrop (posixSplit (posixNormpath fp)).1 (strLen pp + 1) = "" :=
        strDrop_eq_empty _ _ (by omega)
      rw [if_pos hrem]
      exact ⟨fs, rfl⟩
  · rw [if_neg hb, if_neg hb]
    exact ⟨fs, rfl⟩

theorem C2_remap_absolute_witness :
    (classifyAbs posixIsabs "/src/tex/wood.png" = Except.ok true ∧
      (false ∨ ¬(fun q => q == "/dst") "/src/tex/wood.png")) ∧
    (∃ fs2, prefixPath (fun q => q == "/dst") "/dst" "/src/tex/wood.png" "/src" false =
      Except.ok (remapSpecPath "/dst" "/src/tex/wood.png" "/src", fs2)) :=
  ⟨⟨by decide, by decide⟩,
    C2_remap_absolute (fun q => q == "/dst") "/dst" "/src/tex/wood.png" "/src" false
      (by decide) (by decide) (by decide)⟩

set_option maxHeartbeats 2000000 in
/-- C9 (counterexample): remap idempotence fails when the first call's
`os.mkdir` creates a directory at `file_path` itself.  With only `/a/b`
existing, remapping `/a/b/b` under `prefix_directory = /a/b` with
`prefix_path = /a` creates the directory `/a/b/b` and returns `/a/b/b/b`;
after the target file is materialized there, a second identical call finds
`os.path.exists("/a/b/b")` true (the directory the first call made) and
returns `/a/b/b` unremapped — a different path. -/
theorem C9_counterexample :
    prefixPath (fun q => q == "/a/b") "/a/b" "/a/b/b" "/a" false =
      Except.ok ("/a/b/b/b", fun q => q == "/a/b/b" || q == "/a/b") ∧
    prefixPathR (fun q => q == "/a/b/b/b" || (q == "/a/b/b" || q == "/a/b"))
      "/a/b" "/a/b/b" "/a" false = Except.ok "/a/b/b" ∧
    ("/a/b/b" : String) ≠ "/a/b/b/b" := by
  exact ⟨rfl, by decide, by decide⟩

set_option maxHeartbeats 1600000 in
/-- C9 (amended): for a fixed triple with `force = false`, once the first
call has resolved `file_path` to `r1` and the target file is materialized at
`r1`, a second call returns the same path — provided the first call did not
create a new filesystem entry at `file_path` itself (equivalently, either
the first call leaves `os.path.exists(file_path)` unchanged, or the resolved
path is `file_path`).  Without that proviso the claim fails (see the
counterexample). -/
theorem C9_remap_idempotent (fs : String → Bool) (pd fp pp r1 : String)
    (fs1 : String → Bool)
    (h1 : prefixPath fs pd fp pp false = Except.ok (r1, fs1))
    (h2 : fs1 fp = fs fp ∨ r1 = fp) :
    ∃ fs2, prefixPath (fun q => q == r1 || fs1 q) pd fp pp false =
      Except.ok (r1, fs2) := by
  cases hc : classifyAbs posixIsabs fp with
  | error e =>
    rw [prefixPath_classify_error fs pd fp pp false e hc] at h1
    exact Except.noConfusion h1
  | ok b =>
    cases b with
    | false =>
      rw [prefixPath_rel fs pd fp pp false hc] at h1
      obtain ⟨hr, hfs⟩ := Prod.mk.inj (Except.ok.inj h1)
      rw [prefixPath_rel _ pd fp pp false hc, hr]
      exact ⟨_, rfl⟩
    | true =>
      by_cases hfp : fs fp = true
      · rw [prefixPath_abs fs pd fp pp false hc, if_neg (by simp [hfp])] at h1
        obtain ⟨hr, hfs⟩ := Prod.mk.inj (Except.ok.inj h1)
        rw [prefixPath_abs _ pd fp pp false hc, if_neg (by simp [← hr])]
        exact ⟨_, by rw [hr]⟩
      · rw [prefixPath_abs fs pd fp pp false hc,
          if_pos (Or.inr (by simp [hfp]))] at h1
        by_cases hfpr : fp = r1
        · rw [prefixPath_abs _ pd fp pp false hc, if_neg (by simp [hfpr])]
          exact ⟨_, by rw [hfpr]⟩
        · have hfs1 : fs1 fp = fs fp := by
            rcases h2 with h2 | h2
            · exact h2
            · exact absurd h2.symm hfpr
          have hFfp : ((fp == r1) || fs1 fp) = false := by
            simp [hfpr, hfs1, hfp]
          rw [prefixPath_abs _ pd fp pp false hc,
            if_pos (Or.inr (by simp [hFfp]))]
          by_cases hb : pp ≠ "" ∧
              strStartsWith (posixSplit (posixNormpath fp)).1 pp
          · rw [if_pos hb] at h1 ⊢
            by_cases hlt : strLen pp < strLen (posixSplit (posixNormpath fp)).1
            · rw [if_pos hlt] at h1 ⊢
              by_cases hfsd : fs (posixJoin pd
                  (strDrop (posixSplit (posixNormpath fp)).1 (strLen pp + 1))) = true
              · rw [if_pos hfsd] at h1
                obtain ⟨hr, hfs⟩ := Prod.mk.inj (Except.ok.inj h1)
                rw [if_pos (by rw [← hfs]; simp [hfsd])]
                exact ⟨_, by rw [hr]⟩
              · rw [if_neg hfsd] at h1
                unfold mkdirF at h1
                by_cases hpar : (posixSplit (posixJoin pd
                    (strDrop (posixSplit (posixNormpath fp)).1
                      (strLen pp + 1)))).1 = "" ∨
                    fs ((posixSplit (posixJoin pd
                      (strDrop (posixSplit (posixNormpath fp)).1
                        (strLen pp + 1)))).1) = true
                · rw [if_pos hpar] at h1
                  obtain ⟨hr, hfs⟩ := Prod.mk.inj (Except.ok.inj h1)
                  rw [if_pos (by rw [← hfs]; simp)]
                  exact ⟨_, by rw [hr]⟩
                · rw [if_neg hpar] at h1
                  exact Except.noConfusion h1
            · rw [if_neg hlt] at h1 ⊢
              obtain ⟨hr, hfs⟩ := Prod.mk.inj (Except.ok.inj h1)
              exact ⟨_, by rw [hr]⟩
          · rw [if_neg hb] at h1 ⊢
            obtain ⟨hr, hfs⟩ := Prod.mk.inj (Except.ok.inj h1)
            exact ⟨_, by rw [hr]⟩

set_option maxHeartbeats 2000000 in
theorem C9_remap_idempotent_witness :
    (prefixPath (fun _ => false) "/dst" "/x/n" "" false =
      Except.ok ("/dst/n", fun _ => false) ∧
     ((fun _ : String => false) "/x/n" = (fun _ : String => false) "/x/n" ∨
       ("/dst/n" : String) = "/x/n")) ∧
    (∃ fs2, prefixPath (fun q => q == "/dst/n" || (fun _ => false) q)
      "/dst" "/x/n" "" false = Except.ok ("/dst/n", fs2)) :=
  ⟨⟨rfl, Or.inl rfl⟩,
    C9_remap_idempotent (fun _ => false) "/dst" "/x/n" "" "/dst/n"
      (fun _ => false) rfl (Or.inl rfl)⟩
